import Mathlib

/-!
Verification of the one-time login-code lifecycle of the InventoryAI
repository (`users/models.py`, `users/views.py`, `users/utils.py`),
embedded shallowly: Django model rows become Lean structures, the
database of `LoginCode` rows becomes a list, timestamps become integers
(one unit = one minute, matching the `timedelta(minutes=...)` granularity
used throughout the source), and each HTTP handler becomes a pure
function from a request and a store state to a response and a new state.
-/

namespace InventoryAI

/-- ASCII lowering of a string, embedding Python's `str.lower()` as used on
email addresses in `users/views.py` (`email.lower()`); login emails are
ASCII in this code base, so per-character ASCII lowering is faithful. -/
def strLower (s : String) : String :=
  ⟨s.data.map Char.toLower⟩

/-- Embedding of Python's `str.strip()`: drop leading and trailing
whitespace characters. -/
def strTrim (s : String) : String :=
  ⟨((s.data.dropWhile Char.isWhitespace).reverse.dropWhile Char.isWhitespace).reverse⟩

/-- Django's `email__iexact` lookup: case-insensitive equality. -/
def iexact (a b : String) : Bool :=
  strLower a == strLower b

/-- Embeds `email.split("@")[0]` — the part of the email before the first `@`. -/
def localPart (email : String) : String :=
  (email.splitOn "@").headD email

/-- The Django settings consumed by the login-code subsystem, with the
defaults the source code supplies to `getattr(settings, _, default)`. -/
structure Settings where
  LOGIN_CODE_MAX_ATTEMPTS : Nat := 5
  LOGIN_CODE_LOCK_MINUTES : Int := 15
  LOGIN_CODE_EXPIRE_MINUTES : Int := 15
  DEFAULT_NEW_USER_ROLE : String := "staff"
deriving DecidableEq

/-- The settings object with every knob left at its source-code default. -/
def defaultSettings : Settings := {}

/-- One row of the `users.LoginCode` table (`users/models.py`).
`userId` embeds the nullable `user` foreign key; timestamps are integer
minutes. -/
@[ext]
structure LoginCode where
  id : Nat
  email : String
  userId : Option Nat
  code : String
  createdAt : Int
  expiresAt : Int
  used : Bool
  attempts : Nat
  maxAttempts : Nat
  lockedUntil : Option Int
deriving DecidableEq

/-- The lockout test `self.locked_until and self.locked_until > timezone.now()`
that appears both in `LoginCode.is_valid` and in `VerifyLoginCodeView.post`. -/
def lockActiveB (c : LoginCode) (now : Int) : Bool :=
  match c.lockedUntil with
  | some t => now < t
  | none => false

/-- Embeds `LoginCode.is_valid` from `users/models.py`: not used, not expired
(`self.expires_at < timezone.now()` is the *invalidity* test, so a record
is still valid at `now = expires_at`), and not in an active lockout. -/
def LoginCode.is_valid (c : LoginCode) (now : Int) : Bool :=
  if c.used then false
  else if c.expiresAt < now then false
  else if lockActiveB c now then false
  else true

/-- Embeds `LoginCode.create_code` from `users/models.py`. The generated random
code and the fresh UUID are inputs (`code`, `id`). Python's
`max_attempts or settings-default` treats both `None` and `0` as absent,
hence the nested match. -/
def LoginCode.create_code (st : Settings) (id : Nat) (email : String)
    (user : Option Nat) (minutes_valid : Int) (code : String)
    (max_attempts : Option Nat) (now : Int) : LoginCode :=
  { id := id
    email := email
    userId := user
    code := code
    createdAt := now
    expiresAt := now + minutes_valid
    used := false
    attempts := 0
    maxAttempts :=
      match max_attempts with
      | some m => if m = 0 then st.LOGIN_CODE_MAX_ATTEMPTS else m
      | none => st.LOGIN_CODE_MAX_ATTEMPTS
    lockedUntil := none }

/-- Embeds `LoginCode.register_attempt` from `users/models.py`: increment
`attempts`; if the new count reaches `max_attempts or settings-default`,
set `locked_until = now + LOGIN_CODE_LOCK_MINUTES`. -/
def LoginCode.register_attempt (c : LoginCode) (st : Settings) (now : Int) : LoginCode :=
  let c1 : LoginCode := { c with attempts := c.attempts + 1 }
  if c1.attempts ≥ (if c1.maxAttempts = 0 then st.LOGIN_CODE_MAX_ATTEMPTS else c1.maxAttempts) then
    { c1 with lockedUntil := some (now + st.LOGIN_CODE_LOCK_MINUTES) }
  else c1

/-- Accumulator step for `newestWhere`: keep the row with the strictly
greater `created_at`, preferring the earlier-seen row on a tie. -/
def pickNewer (acc : Option LoginCode) (c : LoginCode) : Option LoginCode :=
  match acc with
  | none => some c
  | some b => if c.createdAt > b.createdAt then some c else some b

/-- Embeds `LoginCode.objects.filter(p).order_by("-created_at").first()`:
the record with the greatest `created_at` among those satisfying `p`
(first-listed row wins a tie, making the query deterministic). -/
def newestWhere (p : LoginCode → Bool) (db : List LoginCode) : Option LoginCode :=
  (db.filter p).foldl pickNewer none

/-- Persisting a mutated row: replace the row with the same primary key. -/
def updateCode (db : List LoginCode) (c : LoginCode) : List LoginCode :=
  db.map (fun x => if x.id = c.id then c else x)

/-- One row of the `users.User` table (the fields the login-code flow
reads and writes). -/
structure Account where
  id : Nat
  email : String
  username : String
  role : String
  isActive : Bool
deriving DecidableEq

/-- The JWT pair minted by `user_tokens_for_user` (`users/utils.py`);
the Session Issuer is an external collaborator, so the tokens are opaque
values determined by the user they were minted for. -/
structure Tokens where
  forUser : Nat
deriving DecidableEq

/-- Embeds `user_tokens_for_user(user)` from `users/utils.py`. -/
def user_tokens_for_user (u : Account) : Tokens :=
  { forUser := u.id }

/-- The mutable store shared by the handlers: the `LoginCode` table, the
`User` table, and a counter supplying fresh user primary keys. -/
structure St where
  codes : List LoginCode
  users : List Account
  nextUserId : Nat
deriving DecidableEq

/-- Embeds `User.objects.filter(email__iexact=email).first()`. -/
def findByEmailIexact (users : List Account) (email : String) : Option Account :=
  users.find? (fun u => iexact u.email email)

/-- Rejection reasons of the verifier, per the spec taxonomy: the view
returns HTTP 400 "Invalid or expired code" both when no row matches and
when the matching row is used/expired, and HTTP 429 when locked. -/
inductive RejectReason where
  | noMatch
  | expiredOrUsed
  | locked
deriving DecidableEq

/-- Outcome of `VerifyLoginCodeView.post`. -/
inductive VerifyResult where
  | accepted (account : Account) (tokens : Tokens)
  | rejected (reason : RejectReason)
deriving DecidableEq

/-- The HTTP status code the view attaches to each outcome. -/
def VerifyResult.httpStatus : VerifyResult → Nat
  | .accepted _ _ => 200
  | .rejected .noMatch => 400
  | .rejected .expiredOrUsed => 400
  | .rejected .locked => 429

/-- The first query of `VerifyLoginCodeView.post` (views.py line 210):
`LoginCode.objects.filter(email__iexact=email, code=code).order_by("-created_at").first()`
applied to the normalised inputs (`email.lower().strip()`, `code.strip()`). -/
def exactMatchQ (rawEmail rawCode : String) (db : List LoginCode) : Option LoginCode :=
  newestWhere
    (fun c => iexact c.email (strTrim (strLower rawEmail)) && c.code == strTrim rawCode) db

/-- The fallback query of `VerifyLoginCodeView.post` (views.py line 214):
the newest record for the normalised email, regardless of code. -/
def latestForEmailQ (rawEmail : String) (db : List LoginCode) : Option LoginCode :=
  newestWhere (fun c => iexact c.email (strTrim (strLower rawEmail))) db

/-- Embeds `VerifyLoginCodeView.post` from `users/views.py`, step by
step: normalise the inputs (`email.lower().strip()`, `code.strip()`),
look up the newest exact email+code match; on no match penalise the
newest record for the email and reject with `noMatch`; otherwise check
the lockout, then `is_valid`, then mark used, resolve or auto-provision
the user, link the record, and mint tokens. -/
def VerifyLoginCodeView.post (st : Settings) (σ : St) (rawEmail rawCode : String)
    (now : Int) : VerifyResult × St :=
  let email := strTrim (strLower rawEmail)
  match exactMatchQ rawEmail rawCode σ.codes with
  | none =>
    match latestForEmailQ rawEmail σ.codes with
    | some latest =>
      (.rejected .noMatch,
        { σ with codes := updateCode σ.codes (latest.register_attempt st now) })
    | none => (.rejected .noMatch, σ)
  | some codeObj =>
    if lockActiveB codeObj now then
      (.rejected .locked, σ)
    else if !codeObj.is_valid now then
      (.rejected .expiredOrUsed, σ)
    else
      let codeObj1 : LoginCode := { codeObj with used := true }
      let σ1 : St := { σ with codes := updateCode σ.codes codeObj1 }
      let resolved : Account × St :=
        match findByEmailIexact σ1.users email with
        | some u => (u, σ1)
        | none =>
          let u : Account :=
            { id := σ1.nextUserId
              email := email
              username := localPart email
              role := st.DEFAULT_NEW_USER_ROLE
              isActive := true }
          (u, { σ1 with users := σ1.users ++ [u], nextUserId := σ1.nextUserId + 1 })
    let user := resolved.1
    let σ2 := resolved.2
    let σ3 : St :=
      if codeObj1.userId.isNone then
        { σ2 with codes := updateCode σ2.codes { codeObj1 with userId := some user.id } }
      else σ2
    (.accepted user (user_tokens_for_user user), σ3)

/-- Embeds `send_login_code_email` from `users/utils.py`. Its whole body is a
`try/except` that starts a fire-and-forget background thread and returns
`True`, or returns `False` if starting the send task raised — it never
raises to its caller. `deliveryOk` is the outcome of handing the message
to the background sender; the `Except` codomain records that no exception
escapes (the result is always `.ok`). -/
def send_login_code_email (deliveryOk : Bool) : Except String Bool :=
  .ok deliveryOk

/-- Outcome of `RequestLoginCodeView.post` (the production, `DEBUG=False`
path; the `DEBUG` branches only change the response body). -/
inductive RequestResult where
  | sent
  | emailFailed
deriving DecidableEq

/-- Embeds `RequestLoginCodeView.post` from `users/views.py`: normalise the
email, optionally link an existing user, persist a fresh `LoginCode`
(`newId` is the fresh UUID, `genCode` the generated random code), then
call `send_login_code_email`; only if that call *raises* is the record
deleted and a failure returned. The `create_code` DB-failure `except`
branch is not modelled (the store never fails in this embedding). -/
def RequestLoginCodeView.post (st : Settings) (σ : St) (rawEmail : String)
    (newId : Nat) (genCode : String) (deliveryOk : Bool) (now : Int) :
    RequestResult × St :=
  let email := strTrim (strLower rawEmail)
  let user := findByEmailIexact σ.users email
  let codeObj := LoginCode.create_code st newId email (user.map (fun u => u.id))
    st.LOGIN_CODE_EXPIRE_MINUTES genCode none now
  let σ1 : St := { σ with codes := σ.codes ++ [codeObj] }
  match send_login_code_email deliveryOk with
  | .error _ =>
    (.emailFailed, { σ1 with codes := σ1.codes.filter (fun c => c.id != codeObj.id) })
  | .ok _ => (.sent, σ1)

/-- All primary keys in the code table are distinct — true of the real
table, whose `id` column is a UUID primary key. -/
def idsUnique (db : List LoginCode) : Prop :=
  ∀ a ∈ db, ∀ b ∈ db, a.id = b.id → a = b

/-- Field-wise monotonicity of one record across an operation: the primary
key is stable, `used` never reverts to `false`, `attempts` never
decreases, and a set `locked_until` is never cleared back to null. -/
def recordMonotone (c c' : LoginCode) : Prop :=
  c.id = c'.id ∧ (c.used = true → c'.used = true) ∧ c.attempts ≤ c'.attempts ∧
    (c.lockedUntil ≠ none → c'.lockedUntil ≠ none)

theorem recordMonotone_refl (c : LoginCode) : recordMonotone c c :=
  ⟨rfl, fun h => h, le_refl _, fun h => h⟩

theorem pickNewer_cases (acc : Option LoginCode) (c : LoginCode) :
    pickNewer acc c = some c ∨ pickNewer acc c = acc := by
  cases acc with
  | none => exact Or.inl rfl
  | some b =>
    unfold pickNewer
    by_cases h : c.createdAt > b.createdAt
    · exact Or.inl (by simp [h])
    · exact Or.inr (by simp [h])

theorem foldl_pickNewer_mem (l : List LoginCode) (acc : Option LoginCode) (r : LoginCode)
    (h : l.foldl pickNewer acc = some r) : r ∈ l ∨ acc = some r := by
  induction l generalizing acc with
  | nil => exact Or.inr h
  | cons x l ih =>
    rcases ih (pickNewer acc x) h with hmem | hacc
    · exact Or.inl (List.mem_cons_of_mem _ hmem)
    · rcases pickNewer_cases acc x with h1 | h1
      · have hx : x = r := by rw [h1] at hacc; exact Option.some.inj hacc
        exact Or.inl (hx ▸ List.mem_cons_self _ _)
      · rw [h1] at hacc; exact Or.inr hacc

theorem newestWhere_mem {p : LoginCode → Bool} {db : List LoginCode} {r : LoginCode}
    (h : newestWhere p db = some r) : r ∈ db ∧ p r = true := by
  unfold newestWhere at h
  rcases foldl_pickNewer_mem _ _ _ h with hmem | hacc
  · exact List.mem_filter.mp hmem
  · simp at hacc

theorem foldl_pickNewer_map (f : LoginCode → LoginCode) (l : List LoginCode)
    (acc : Option LoginCode)
    (hc : ∀ x ∈ l, (f x).createdAt = x.createdAt)
    (hacc : ∀ a, acc = some a → (f a).createdAt = a.createdAt) :
    (l.map f).foldl pickNewer (acc.map f) = Option.map f (l.foldl pickNewer acc) := by
  induction l generalizing acc with
  | nil => rfl
  | cons x l ih =>
    have hx : (f x).createdAt = x.createdAt := hc x (List.mem_cons_self _ _)
    have hstep : pickNewer (acc.map f) (f x) = Option.map f (pickNewer acc x) := by
      cases acc with
      | none => rfl
      | some b =>
        have hb : (f b).createdAt = b.createdAt := hacc b rfl
        show pickNewer (some (f b)) (f x) = Option.map f (pickNewer (some b) x)
        simp only [pickNewer]
        rw [hx, hb]
        by_cases hcb : x.createdAt > b.createdAt
        · simp [hcb]
        · simp [hcb]
    rw [List.map_cons, List.foldl_cons, List.foldl_cons, hstep]
    exact ih (pickNewer acc x)
      (fun y hy => hc y (List.mem_cons_of_mem _ hy))
      (fun a ha => by
        rcases pickNewer_cases acc x with h1 | h1
        · rw [h1] at ha; exact (Option.some.inj ha) ▸ hx
        · rw [h1] at ha; exact hacc a ha)

theorem filter_map_of_pres (p : LoginCode → Bool) (f : LoginCode → LoginCode)
    (db : List LoginCode) (hp : ∀ x ∈ db, p (f x) = p x) :
    (db.map f).filter p = (db.filter p).map f := by
  induction db with
  | nil => rfl
  | cons x l ih =>
    have hx := hp x (List.mem_cons_self _ _)
    have ih' := ih (fun y hy => hp y (List.mem_cons_of_mem _ hy))
    by_cases hpx : p x = true
    · simp [List.filter_cons, hx, hpx, ih']
    · simp [List.filter_cons, hx, hpx, ih']

theorem newestWhere_map (p : LoginCode → Bool) (f : LoginCode → LoginCode)
    (db : List LoginCode) (hp : ∀ x ∈ db, p (f x) = p x)
    (hc : ∀ x ∈ db, (f x).createdAt = x.createdAt) :
    newestWhere p (db.map f) = Option.map f (newestWhere p db) := by
  unfold newestWhere
  rw [filter_map_of_pres p f db hp]
  have h := foldl_pickNewer_map f (db.filter p) none
    (fun x hx => hc x (List.mem_filter.mp hx).1)
    (fun a ha => by simp at ha)
  simpa using h

theorem updateCode_updateCode (db : List LoginCode) (a b : LoginCode) (h : b.id = a.id) :
    updateCode (updateCode db a) b = updateCode db b := by
  unfold updateCode
  rw [List.map_map]
  have hfun : ((fun x => if x.id = b.id then b else x) ∘ fun x => if x.id = a.id then a else x)
      = fun x : LoginCode => if x.id = b.id then b else x := by
    funext x
    by_cases hx : x.id = a.id
    · simp [Function.comp, hx, h]
    · simp [Function.comp, hx, h]
  rw [hfun]

theorem updateCode_self (db : List LoginCode) (r : LoginCode)
    (hids : idsUnique db) (hr : r ∈ db) : updateCode db r = db := by
  unfold updateCode
  have h : ∀ x ∈ db, (if x.id = r.id then r else x) = x := by
    intro x hx
    by_cases hid : x.id = r.id
    · rw [if_pos hid, hids x hx r hr hid]
    · rw [if_neg hid]
  rw [List.map_congr_left h]
  exact List.map_id db

theorem register_attempt_spec (c : LoginCode) (st : Settings) (now : Int) :
    c.register_attempt st now =
      { c with
        attempts := c.attempts + 1
        lockedUntil :=
          if c.attempts + 1 ≥ (if c.maxAttempts = 0 then st.LOGIN_CODE_MAX_ATTEMPTS else c.maxAttempts)
          then some (now + st.LOGIN_CODE_LOCK_MINUTES)
          else c.lockedUntil } := by
  unfold LoginCode.register_attempt
  by_cases h : c.attempts + 1 ≥ (if c.maxAttempts = 0 then st.LOGIN_CODE_MAX_ATTEMPTS else c.maxAttempts)
  · simp [h]
  · simp [h]

theorem lockActiveB_false_of_le (c : LoginCode) (now now2 : Int)
    (h : lockActiveB c now = false) (hle : now ≤ now2) : lockActiveB c now2 = false := by
  unfold lockActiveB at h ⊢
  cases hc : c.lockedUntil with
  | none => rfl
  | some t =>
    rw [hc] at h
    simp only [decide_eq_false_iff_not, not_lt] at h ⊢
    exact le_trans h hle

theorem post_noMatch_none_shape (st : Settings) (σ : St) (rawEmail rawCode : String)
    (now : Int)
    (hnone : exactMatchQ rawEmail rawCode σ.codes = none)
    (hlatest : latestForEmailQ rawEmail σ.codes = none) :
    VerifyLoginCodeView.post st σ rawEmail rawCode now = (.rejected .noMatch, σ) := by
  simp only [VerifyLoginCodeView.post, hnone, hlatest]

theorem post_noMatch_shape (st : Settings) (σ : St) (rawEmail rawCode : String)
    (now : Int) (latest : LoginCode)
    (hnone : exactMatchQ rawEmail rawCode σ.codes = none)
    (hlatest : latestForEmailQ rawEmail σ.codes = some latest) :
    VerifyLoginCodeView.post st σ rawEmail rawCode now =
      (.rejected .noMatch,
       { σ with codes := updateCode σ.codes (latest.register_attempt st now) }) := by
  simp only [VerifyLoginCodeView.post, hnone, hlatest]

theorem post_locked_shape (st : Settings) (σ : St) (rawEmail rawCode : String)
    (now : Int) (r : LoginCode)
    (hfind : exactMatchQ rawEmail rawCode σ.codes = some r)
    (hlock : lockActiveB r now = true) :
    VerifyLoginCodeView.post st σ rawEmail rawCode now = (.rejected .locked, σ) := by
  simp only [VerifyLoginCodeView.post, hfind, hlock, if_true]

theorem post_expiredOrUsed_shape (st : Settings) (σ : St) (rawEmail rawCode : String)
    (now : Int) (r : LoginCode)
    (hfind : exactMatchQ rawEmail rawCode σ.codes = some r)
    (hlock : lockActiveB r now = false)
    (hinvalid : r.is_valid now = false) :
    VerifyLoginCodeView.post st σ rawEmail rawCode now = (.rejected .expiredOrUsed, σ) := by
  simp only [VerifyLoginCodeView.post, hfind, hlock, hinvalid, Bool.not_false, if_true,
    Bool.false_eq_true, if_false]

theorem is_valid_true_iff (c : LoginCode) (now : Int) :
    c.is_valid now = true ↔
      (c.used = false ∧ now ≤ c.expiresAt ∧ lockActiveB c now = false) := by
  unfold LoginCode.is_valid
  cases hu : c.used
  · by_cases he : c.expiresAt < now
    · simp [he, not_le.mpr he]
    · by_cases hl : lockActiveB c now
      · simp [he, hl]
      · simp [he, hl, not_lt.mp he]
  · simp

theorem is_valid_false_of_used (c : LoginCode) (now : Int) (h : c.used = true) :
    c.is_valid now = false := by
  unfold LoginCode.is_valid
  rw [h]
  rfl

theorem lockActiveB_congr (c c' : LoginCode) (now : Int)
    (h : c.lockedUntil = c'.lockedUntil) : lockActiveB c now = lockActiveB c' now := by
  unfold lockActiveB
  rw [h]

theorem record_update_userId_self (r : LoginCode) (uid : Nat) (v : Nat)
    (h : r.userId = some v) :
    ({ r with used := true, userId := some (r.userId.getD uid) } : LoginCode)
      = { r with used := true } := by
  ext <;> simp [h]

theorem mem_updateCode_eq_of_id (db : List LoginCode) (x c : LoginCode)
    (hc : c ∈ updateCode db x) (hid : c.id = x.id) : c = x := by
  unfold updateCode at hc
  rcases List.mem_map.mp hc with ⟨y, hy, hyc⟩
  by_cases h : y.id = x.id
  · rw [← hyc, if_pos h]
  · rw [← hyc, if_neg h] at hid
    exact absurd hid h

theorem updateCode_mem_self (db : List LoginCode) (x y : LoginCode)
    (hy : y ∈ db) (hid : y.id = x.id) : x ∈ updateCode db x := by
  unfold updateCode
  exact List.mem_map.mpr ⟨y, hy, if_pos hid⟩

theorem newestWhere_updateCode (p : LoginCode → Bool) (db : List LoginCode)
    (hids : idsUnique db) (r x : LoginCode) (hr : r ∈ db) (hid : x.id = r.id)
    (hp : p x = p r) (hcreated : x.createdAt = r.createdAt) :
    newestWhere p (updateCode db x)
      = Option.map (fun y => if y.id = x.id then x else y) (newestWhere p db) := by
  unfold updateCode
  apply newestWhere_map
  · intro y hy
    by_cases h : y.id = x.id
    · have hyr : y = r := hids y hy r hr (h.trans hid)
      rw [if_pos h, hyr, hp]
    · rw [if_neg h]
  · intro y hy
    by_cases h : y.id = x.id
    · have hyr : y = r := hids y hy r hr (h.trans hid)
      rw [if_pos h, hyr, hcreated]
    · rw [if_neg h]

theorem newestWhere_updateCode_some (p : LoginCode → Bool) (db : List LoginCode)
    (hids : idsUnique db) (r x : LoginCode)
    (hfind : newestWhere p db = some r) (hid : x.id = r.id)
    (hp : p x = p r) (hcreated : x.createdAt = r.createdAt) :
    newestWhere p (updateCode db x) = some x := by
  rw [newestWhere_updateCode p db hids r x (newestWhere_mem hfind).1 hid hp hcreated, hfind]
  simp [hid.symm]

theorem newestWhere_updateCode_none (p : LoginCode → Bool) (db : List LoginCode)
    (hids : idsUnique db) (r x : LoginCode) (hr : r ∈ db) (hid : x.id = r.id)
    (hp : p x = p r) (hcreated : x.createdAt = r.createdAt)
    (hnone : newestWhere p db = none) :
    newestWhere p (updateCode db x) = none := by
  rw [newestWhere_updateCode p db hids r x hr hid hp hcreated, hnone]
  rfl

theorem post_accept_shape (st : Settings) (σ : St) (rawEmail rawCode : String)
    (now : Int) (r : LoginCode)
    (hfind : exactMatchQ rawEmail rawCode σ.codes = some r)
    (hlock : lockActiveB r now = false)
    (hvalid : r.is_valid now = true) :
    ∃ user rF,
      (VerifyLoginCodeView.post st σ rawEmail rawCode now).1
        = .accepted user (user_tokens_for_user user) ∧
      (VerifyLoginCodeView.post st σ rawEmail rawCode now).2.codes = updateCode σ.codes rF ∧
      rF = { r with used := true, userId := some (r.userId.getD user.id) } ∧
      (match findByEmailIexact σ.users (strTrim (strLower rawEmail)) with
       | some u => user = u ∧
           (VerifyLoginCodeView.post st σ rawEmail rawCode now).2.users = σ.users
       | none =>
           user = { id := σ.nextUserId, email := strTrim (strLower rawEmail),
                    username := localPart (strTrim (strLower rawEmail)),
                    role := st.DEFAULT_NEW_USER_ROLE, isActive := true } ∧
           (VerifyLoginCodeView.post st σ rawEmail rawCode now).2.users
             = σ.users ++ [user]) := by
  cases hu : findByEmailIexact σ.users (strTrim (strLower rawEmail)) with
  | some u =>
    refine ⟨u, { r with used := true, userId := some (r.userId.getD u.id) }, ?_, ?_, rfl, ?_⟩
    · simp [VerifyLoginCodeView.post, hfind, hlock, hvalid, hu]
    · cases hv : r.userId with
      | none =>
        simp [VerifyLoginCodeView.post, hfind, hlock, hvalid, hu, hv]
        exact updateCode_updateCode σ.codes _ _ rfl
      | some v =>
        simp [VerifyLoginCodeView.post, hfind, hlock, hvalid, hu, hv]
    · refine ⟨rfl, ?_⟩
      cases hv : r.userId with
      | none => simp [VerifyLoginCodeView.post, hfind, hlock, hvalid, hu, hv]
      | some v => simp [VerifyLoginCodeView.post, hfind, hlock, hvalid, hu, hv]
  | none =>
    refine ⟨⟨σ.nextUserId, strTrim (strLower rawEmail),
             localPart (strTrim (strLower rawEmail)), st.DEFAULT_NEW_USER_ROLE, true⟩,
            ⟨r.id, r.email, some (r.userId.getD σ.nextUserId), r.code, r.createdAt,
             r.expiresAt, true, r.attempts, r.maxAttempts, r.lockedUntil⟩,
            ?_, ?_, rfl, ?_⟩
    · simp [VerifyLoginCodeView.post, hfind, hlock, hvalid, hu]
    · cases hv : r.userId with
      | none =>
        simp [VerifyLoginCodeView.post, hfind, hlock, hvalid, hu, hv]
        exact updateCode_updateCode σ.codes _ _ rfl
      | some v =>
        simp [VerifyLoginCodeView.post, hfind, hlock, hvalid, hu, hv]
    · refine ⟨rfl, ?_⟩
      cases hv : r.userId with
      | none => simp [VerifyLoginCodeView.post, hfind, hlock, hvalid, hu, hv]
      | some v => simp [VerifyLoginCodeView.post, hfind, hlock, hvalid, hu, hv]

theorem updateCode_mono_forward (db : List LoginCode) (hids : idsUnique db)
    (r x : LoginCode) (hr : r ∈ db) (hid : x.id = r.id) (hmono : recordMonotone r x) :
    ∀ c ∈ db, ∃ c' ∈ updateCode db x, recordMonotone c c' := by
  intro c hc
  by_cases h : c.id = x.id
  · have hcr : c = r := hids c hc r hr (h.trans hid)
    refine ⟨x, ?_, hcr ▸ hmono⟩
    unfold updateCode
    exact List.mem_map.mpr ⟨c, hc, if_pos h⟩
  · refine ⟨c, ?_, recordMonotone_refl c⟩
    unfold updateCode
    exact List.mem_map.mpr ⟨c, hc, if_neg h⟩

/-! ### Claim theorems -/

/-- Definition following the spec's words for claim C5, for comparison
with the source-derived `LoginCode.is_valid`: usable iff
`used == false AND now < expires_at AND (locked_until is null OR
now >= locked_until)` — note the *strict* `now < expires_at`. -/
def spec_is_valid (c : LoginCode) (now : Int) : Bool :=
  !c.used && decide (now < c.expiresAt) &&
    (match c.lockedUntil with
     | none => true
     | some t => decide (t ≤ now))

/-- Claim C5, counterexample: at `now = expires_at` exactly, the code's
`is_valid` still accepts the record (models.py tests `expires_at < now`
for invalidity), while the claim's strict `now < expires_at` rejects it.
Record: unused, unlocked, expiring at 15, checked at exactly 15. -/
theorem C5_counterexample :
    LoginCode.is_valid
      { id := 1, email := "a@b.com", userId := none, code := "111111", createdAt := 0,
        expiresAt := 15, used := false, attempts := 0, maxAttempts := 5,
        lockedUntil := none } 15 = true ∧
    spec_is_valid
      { id := 1, email := "a@b.com", userId := none, code := "111111", createdAt := 0,
        expiresAt := 15, used := false, attempts := 0, maxAttempts := 5,
        lockedUntil := none } 15 = false := by
  constructor <;> rfl

/-- Claim C5 (amended): a record is usable (`is_valid`) iff
`used == false` and `now <= expires_at` (non-strict: a check at exactly
`expires_at` still counts as valid) and `locked_until` is null or
`now >= locked_until`. -/
theorem C5_is_valid_characterisation (c : LoginCode) (now : Int) :
    c.is_valid now = true ↔
      (c.used = false ∧ now ≤ c.expiresAt ∧
        (c.lockedUntil = none ∨ ∃ t, c.lockedUntil = some t ∧ t ≤ now)) := by
  rw [is_valid_true_iff]
  constructor
  · rintro ⟨h1, h2, h3⟩
    refine ⟨h1, h2, ?_⟩
    unfold lockActiveB at h3
    cases hc : c.lockedUntil with
    | none => exact Or.inl rfl
    | some t =>
      rw [hc] at h3
      simp only [decide_eq_false_iff_not, not_lt] at h3
      exact Or.inr ⟨t, rfl, h3⟩
  · rintro ⟨h1, h2, h3⟩
    refine ⟨h1, h2, ?_⟩
    unfold lockActiveB
    rcases h3 with hnone | ⟨t, ht, hle⟩
    · rw [hnone]
    · rw [ht]
      simp only [decide_eq_false_iff_not, not_lt]
      exact hle

/-- Claim C4: a verify call whose exactly-matching record has
`locked_until` strictly in the future returns `Rejected(locked)` with
HTTP 429 (distinguished from the 400 used for `no_match` and
`expired_or_used`) and leaves the store — in particular `attempts` —
entirely unchanged; no validity hypothesis is needed, so the lock check
takes precedence over the used/expired check. -/
theorem C4_locked_rejects_and_mutates_nothing (st : Settings) (σ : St)
    (rawEmail rawCode : String) (now t : Int) (r : LoginCode)
    (hfind : exactMatchQ rawEmail rawCode σ.codes = some r)
    (hlu : r.lockedUntil = some t) (hfut : now < t) :
    VerifyLoginCodeView.post st σ rawEmail rawCode now = (.rejected .locked, σ) ∧
    (VerifyLoginCodeView.post st σ rawEmail rawCode now).1.httpStatus = 429 ∧
    VerifyResult.httpStatus (.rejected .noMatch) = 400 ∧
    VerifyResult.httpStatus (.rejected .expiredOrUsed) = 400 := by
  have hlock : lockActiveB r now = true := by
    unfold lockActiveB
    rw [hlu]
    simpa using hfut
  have h := post_locked_shape st σ rawEmail rawCode now r hfind hlock
  refine ⟨h, ?_, rfl, rfl⟩
  rw [h]
  rfl

/-- Fixture for the C4 witness: an already-*used* record (showing the
lock check fires before the used/expired check) locked until 100. -/
def wC4rec : LoginCode :=
  { id := 2, email := "a@b.com", userId := none, code := "222222", createdAt := 0,
    expiresAt := 15, used := true, attempts := 5, maxAttempts := 5,
    lockedUntil := some 100 }

def wC4st : St := { codes := [wC4rec], users := [], nextUserId := 0 }

theorem C4_witness :
    VerifyLoginCodeView.post defaultSettings wC4st "a@b.com" "222222" 50
      = (.rejected .locked, wC4st) :=
  (C4_locked_rejects_and_mutates_nothing defaultSettings wC4st "a@b.com" "222222" 50 100
    wC4rec (by decide) (by decide) (by decide)).1

/-- Claim C2: when no record matches the email (case-insensitively) with
that exact code, but some record exists for the email, the newest such
record's `attempts` is incremented by one; if the incremented count
reaches `max_attempts`, `locked_until` becomes `now + lock duration`;
and the call returns `Rejected(no_match)`. (`max_attempts ≠ 0` because
Python's `max_attempts or default` falls back to the settings default
for a zero ceiling.) -/
theorem C2_noMatch_penalises_latest (st : Settings) (σ : St)
    (rawEmail rawCode : String) (now : Int) (latest : LoginCode)
    (hnone : exactMatchQ rawEmail rawCode σ.codes = none)
    (hlatest : latestForEmailQ rawEmail σ.codes = some latest)
    (hmax : latest.maxAttempts ≠ 0) :
    VerifyLoginCodeView.post st σ rawEmail rawCode now =
      (.rejected .noMatch,
       { σ with codes := updateCode σ.codes { latest with
           attempts := latest.attempts + 1
           lockedUntil :=
             if latest.attempts + 1 ≥ latest.maxAttempts
             then some (now + st.LOGIN_CODE_LOCK_MINUTES)
             else latest.lockedUntil } }) := by
  have hreg := register_attempt_spec latest st now
  rw [if_neg hmax] at hreg
  rw [post_noMatch_shape st σ rawEmail rawCode now latest hnone hlatest, hreg]

/-- Fixture for the C2 witness: one fresh record whose code is not the
submitted one. -/
def wC2rec : LoginCode :=
  { id := 3, email := "a@b.com", userId := none, code := "222222", createdAt := 0,
    expiresAt := 15, used := false, attempts := 0, maxAttempts := 5,
    lockedUntil := none }

def wC2st : St := { codes := [wC2rec], users := [], nextUserId := 0 }

theorem C2_witness :
    VerifyLoginCodeView.post defaultSettings wC2st "a@b.com" "111111" 3
      = (.rejected .noMatch,
         { wC2st with codes := updateCode wC2st.codes { wC2rec with
             attempts := wC2rec.attempts + 1
             lockedUntil :=
               if wC2rec.attempts + 1 ≥ wC2rec.maxAttempts
               then some (3 + defaultSettings.LOGIN_CODE_LOCK_MINUTES)
               else wC2rec.lockedUntil } }) :=
  C2_noMatch_penalises_latest defaultSettings wC2st "a@b.com" "111111" 3 wC2rec
    (by decide) (by decide) (by decide)

/-- Claim C6: every successful verify marks the record used; the account
is resolved by case-insensitive email lookup or, if absent, created with
role "staff" (the settings default) and username equal to the email's
local part; an unlinked record is linked to that account; and the
response carries the account with session tokens minted for it. -/
theorem C6_accept_provisions_and_links (st : Settings) (σ : St)
    (rawEmail rawCode : String) (now : Int) (r : LoginCode)
    (hfind : exactMatchQ rawEmail rawCode σ.codes = some r)
    (hlock : lockActiveB r now = false)
    (hvalid : r.is_valid now = true)
    (hrole : st.DEFAULT_NEW_USER_ROLE = "staff") :
    ∃ user,
      (VerifyLoginCodeView.post st σ rawEmail rawCode now).1
        = .accepted user (user_tokens_for_user user) ∧
      (∃ c ∈ (VerifyLoginCodeView.post st σ rawEmail rawCode now).2.codes, c.id = r.id) ∧
      (∀ c ∈ (VerifyLoginCodeView.post st σ rawEmail rawCode now).2.codes,
          c.id = r.id → c.used = true ∧ c.userId = some (r.userId.getD user.id)) ∧
      (match findByEmailIexact σ.users (strTrim (strLower rawEmail)) with
       | some u => user = u ∧
           (VerifyLoginCodeView.post st σ rawEmail rawCode now).2.users = σ.users
       | none =>
           user.role = "staff" ∧
           user.username = localPart (strTrim (strLower rawEmail)) ∧
           user.email = strTrim (strLower rawEmail) ∧
           (VerifyLoginCodeView.post st σ rawEmail rawCode now).2.users
             = σ.users ++ [user]) := by
  obtain ⟨user, rF, h1, h2, h3, h4⟩ :=
    post_accept_shape st σ rawEmail rawCode now r hfind hlock hvalid
  have hrmem : r ∈ σ.codes := (newestWhere_mem hfind).1
  have hrFid : rF.id = r.id := by rw [h3]
  refine ⟨user, h1, ?_, ?_, ?_⟩
  · refine ⟨rF, ?_, hrFid⟩
    rw [h2]
    exact updateCode_mem_self σ.codes rF r hrmem hrFid.symm
  · intro c hc hcid
    rw [h2] at hc
    have hceq : c = rF := mem_updateCode_eq_of_id σ.codes rF c hc (by rw [hcid, hrFid])
    subst hceq
    constructor
    · rw [h3]
    · rw [h3]
  · cases hu : findByEmailIexact σ.users (strTrim (strLower rawEmail)) with
    | some u =>
      rw [hu] at h4
      exact h4
    | none =>
      rw [hu] at h4
      obtain ⟨hueq, husers⟩ := h4
      refine ⟨?_, ?_, ?_, husers⟩
      · simp [hueq, hrole]
      · simp [hueq]
      · simp [hueq]

/-- Fixture for the C6 witness: a valid unlinked record for an email with
no existing account. -/
def wC6rec : LoginCode :=
  { id := 4, email := "new@x.com", userId := none, code := "654321", createdAt := 0,
    expiresAt := 15, used := false, attempts := 0, maxAttempts := 5,
    lockedUntil := none }

def wC6st : St := { codes := [wC6rec], users := [], nextUserId := 11 }

theorem C6_witness :
    ∃ user,
      (VerifyLoginCodeView.post defaultSettings wC6st "new@x.com" "654321" 1).1
        = .accepted user (user_tokens_for_user user) ∧
      (∃ c ∈ (VerifyLoginCodeView.post defaultSettings wC6st "new@x.com" "654321" 1).2.codes,
          c.id = wC6rec.id) ∧
      (∀ c ∈ (VerifyLoginCodeView.post defaultSettings wC6st "new@x.com" "654321" 1).2.codes,
          c.id = wC6rec.id → c.used = true ∧ c.userId = some (wC6rec.userId.getD user.id)) ∧
      (match findByEmailIexact wC6st.users (strTrim (strLower "new@x.com")) with
       | some u => user = u ∧
           (VerifyLoginCodeView.post defaultSettings wC6st "new@x.com" "654321" 1).2.users
             = wC6st.users
       | none =>
           user.role = "staff" ∧
           user.username = localPart (strTrim (strLower "new@x.com")) ∧
           user.email = strTrim (strLower "new@x.com") ∧
           (VerifyLoginCodeView.post defaultSettings wC6st "new@x.com" "654321" 1).2.users
             = wC6st.users ++ [user]) :=
  C6_accept_provisions_and_links defaultSettings wC6st "new@x.com" "654321" 1 wC6rec
    (by decide) (by decide) (by decide) rfl

/-- Claim C1: for an issued, unexpired, unused, unlocked record that is
the newest exact match for `(email, code)`, the first verify accepts and
marks the record used (leaving `attempts` unchanged); any subsequent
verify with the same email and code (at `now2 ≥ now`) returns
`Rejected(expired_or_used)` and leaves the store byte-for-byte unchanged
— so `attempts` is untouched and no duplicate account is created. -/
theorem C1_first_accept_then_expiredOrUsed (st : Settings) (σ : St)
    (rawEmail rawCode : String) (now now2 : Int) (r : LoginCode)
    (hids : idsUnique σ.codes)
    (hfind : exactMatchQ rawEmail rawCode σ.codes = some r)
    (hused : r.used = false)
    (hexp : now ≤ r.expiresAt)
    (hlock : lockActiveB r now = false)
    (hle : now ≤ now2) :
    (∃ a tk, (VerifyLoginCodeView.post st σ rawEmail rawCode now).1 = .accepted a tk) ∧
    (∃ c ∈ (VerifyLoginCodeView.post st σ rawEmail rawCode now).2.codes,
        c.id = r.id ∧ c.used = true ∧ c.attempts = r.attempts) ∧
    VerifyLoginCodeView.post st ((VerifyLoginCodeView.post st σ rawEmail rawCode now).2)
        rawEmail rawCode now2
      = (.rejected .expiredOrUsed,
         (VerifyLoginCodeView.post st σ rawEmail rawCode now).2) := by
  have hvalid : r.is_valid now = true := (is_valid_true_iff r now).mpr ⟨hused, hexp, hlock⟩
  obtain ⟨user, rF, h1, h2, h3, h4⟩ :=
    post_accept_shape st σ rawEmail rawCode now r hfind hlock hvalid
  have hrmem : r ∈ σ.codes := (newestWhere_mem hfind).1
  have hrFid : rF.id = r.id := by rw [h3]
  have hrFemail : rF.email = r.email := by rw [h3]
  have hrFcode : rF.code = r.code := by rw [h3]
  have hrFcreated : rF.createdAt = r.createdAt := by rw [h3]
  have hrFused : rF.used = true := by rw [h3]
  have hrFatt : rF.attempts = r.attempts := by rw [h3]
  have hrFlocked : rF.lockedUntil = r.lockedUntil := by rw [h3]
  refine ⟨⟨user, user_tokens_for_user user, h1⟩, ?_, ?_⟩
  · refine ⟨rF, ?_, hrFid, hrFused, hrFatt⟩
    rw [h2]
    exact updateCode_mem_self σ.codes rF r hrmem hrFid.symm
  · have hfind2 : exactMatchQ rawEmail rawCode
        ((VerifyLoginCodeView.post st σ rawEmail rawCode now).2).codes = some rF := by
      rw [h2]
      exact newestWhere_updateCode_some _ σ.codes hids r rF hfind hrFid
        (by simp only [hrFemail, hrFcode]) hrFcreated
    have hlock2 : lockActiveB rF now2 = false := by
      rw [lockActiveB_congr rF r now2 hrFlocked]
      exact lockActiveB_false_of_le r now now2 hlock hle
    have hinvalid2 : rF.is_valid now2 = false := is_valid_false_of_used rF now2 hrFused
    exact post_expiredOrUsed_shape st _ rawEmail rawCode now2 rF hfind2 hlock2 hinvalid2

/-- Fixture for the C1 witness: one fresh valid record. -/
def wC1rec : LoginCode :=
  { id := 5, email := "a@b.com", userId := none, code := "111111", createdAt := 0,
    expiresAt := 15, used := false, attempts := 0, maxAttempts := 5,
    lockedUntil := none }

def wC1st : St := { codes := [wC1rec], users := [], nextUserId := 0 }

theorem C1_witness :
    VerifyLoginCodeView.post defaultSettings
        ((VerifyLoginCodeView.post defaultSettings wC1st "a@b.com" "111111" 1).2)
        "a@b.com" "111111" 2
      = (.rejected .expiredOrUsed,
         (VerifyLoginCodeView.post defaultSettings wC1st "a@b.com" "111111" 1).2) :=
  (C1_first_accept_then_expiredOrUsed defaultSettings wC1st "a@b.com" "111111" 1 2 wC1rec
    (by unfold idsUnique; decide) (by decide) (by decide) (by decide) (by decide)
    (by decide)).2.2

/-- Claim C10: whenever an increment reaches the ceiling,
`register_attempt` sets `locked_until = now + lock duration` afresh —
including on the no-match path of verify against an already-locked newest
record — so every further wrong-code submission pushes the lockout
window forward. (`max_attempts ≠ 0` as in C2.) -/
theorem C10_every_attempt_relocks (st : Settings) (σ : St)
    (rawEmail rawCode : String) (now tR : Int) (r latest : LoginCode)
    (hmaxr : r.maxAttempts ≠ 0) (hr : r.attempts + 1 ≥ r.maxAttempts)
    (hnone : exactMatchQ rawEmail rawCode σ.codes = none)
    (hlatest : latestForEmailQ rawEmail σ.codes = some latest)
    (hmaxl : latest.maxAttempts ≠ 0) (hl : latest.attempts + 1 ≥ latest.maxAttempts) :
    (r.register_attempt st tR).lockedUntil = some (tR + st.LOGIN_CODE_LOCK_MINUTES) ∧
    (r.register_attempt st tR).attempts = r.attempts + 1 ∧
    (VerifyLoginCodeView.post st σ rawEmail rawCode now).1 = .rejected .noMatch ∧
    (VerifyLoginCodeView.post st σ rawEmail rawCode now).2.codes
      = updateCode σ.codes { latest with
          attempts := latest.attempts + 1
          lockedUntil := some (now + st.LOGIN_CODE_LOCK_MINUTES) } := by
  have hreg := register_attempt_spec r st tR
  rw [if_neg hmaxr, if_pos hr] at hreg
  have hreg2 := register_attempt_spec latest st now
  rw [if_neg hmaxl, if_pos hl] at hreg2
  have hshape := post_noMatch_shape st σ rawEmail rawCode now latest hnone hlatest
  refine ⟨by rw [hreg], by rw [hreg], by rw [hshape], ?_⟩
  rw [hshape, hreg2]

/-- Fixture for the C10 witness: the newest record is already locked
(until 10) with `attempts = 5`; a wrong code at time 50 relocks it
until 65. -/
def wC10rec : LoginCode :=
  { id := 6, email := "a@b.com", userId := none, code := "222222", createdAt := 0,
    expiresAt := 15, used := false, attempts := 5, maxAttempts := 5,
    lockedUntil := some 10 }

def wC10st : St := { codes := [wC10rec], users := [], nextUserId := 0 }

theorem C10_witness :
    (wC10rec.register_attempt defaultSettings 50).lockedUntil
        = some (50 + defaultSettings.LOGIN_CODE_LOCK_MINUTES) ∧
    (wC10rec.register_attempt defaultSettings 50).attempts = wC10rec.attempts + 1 ∧
    (VerifyLoginCodeView.post defaultSettings wC10st "a@b.com" "111111" 50).1
        = .rejected .noMatch ∧
    (VerifyLoginCodeView.post defaultSettings wC10st "a@b.com" "111111" 50).2.codes
      = updateCode wC10st.codes { wC10rec with
          attempts := wC10rec.attempts + 1
          lockedUntil := some (50 + defaultSettings.LOGIN_CODE_LOCK_MINUTES) } :=
  C10_every_attempt_relocks defaultSettings wC10st "a@b.com" "111111" 50 50
    wC10rec wC10rec (by decide) (by decide) (by decide) (by decide) (by decide) (by decide)

theorem mono_register (c : LoginCode) (st : Settings) (now : Int) :
    recordMonotone c (c.register_attempt st now) := by
  unfold recordMonotone
  rw [register_attempt_spec]
  refine ⟨rfl, fun h => h, Nat.le_succ _, fun h => ?_⟩
  by_cases hcond : c.attempts + 1
      ≥ (if c.maxAttempts = 0 then st.LOGIN_CODE_MAX_ATTEMPTS else c.maxAttempts)
  · simp [hcond]
  · simp only [if_neg hcond]
    exact h

/-- Claim C7: across the three operations — verify, issue, and
`register_attempt` — every pre-existing record evolves monotonically:
`used` only transitions false→true, `attempts` never decreases, and a
set `locked_until` is never cleared back to null; a fresh issuance adds a
new record and leaves every existing row untouched (its delivery-failure
branch is unreachable, see C8). -/
theorem C7_monotone_transitions (st : Settings) (σ : St)
    (rawEmail rawCode rawEmail2 genCode : String) (now t tI : Int)
    (newId : Nat) (deliveryOk : Bool) (r : LoginCode)
    (hids : idsUnique σ.codes) :
    (∀ c ∈ σ.codes,
        ∃ c' ∈ (VerifyLoginCodeView.post st σ rawEmail rawCode now).2.codes,
          recordMonotone c c') ∧
    (∀ c ∈ σ.codes,
        c ∈ (RequestLoginCodeView.post st σ rawEmail2 newId genCode deliveryOk tI).2.codes) ∧
    recordMonotone r (r.register_attempt st t) := by
  refine ⟨?_, ?_, mono_register r st t⟩
  · cases hf : exactMatchQ rawEmail rawCode σ.codes with
    | none =>
      cases hl : latestForEmailQ rawEmail σ.codes with
      | none =>
        rw [post_noMatch_none_shape st σ rawEmail rawCode now hf hl]
        intro c hc
        exact ⟨c, hc, recordMonotone_refl c⟩
      | some latest =>
        rw [post_noMatch_shape st σ rawEmail rawCode now latest hf hl]
        have hmem : latest ∈ σ.codes := (newestWhere_mem hl).1
        have hregid : (latest.register_attempt st now).id = latest.id := by
          rw [register_attempt_spec]
        exact updateCode_mono_forward σ.codes hids latest _ hmem hregid
          (mono_register latest st now)
    | some rr =>
      by_cases hlk : lockActiveB rr now = true
      · rw [post_locked_shape st σ rawEmail rawCode now rr hf hlk]
        intro c hc
        exact ⟨c, hc, recordMonotone_refl c⟩
      · have hlk' : lockActiveB rr now = false := by
          revert hlk
          cases lockActiveB rr now <;> simp
        cases hv : rr.is_valid now with
        | false =>
          rw [post_expiredOrUsed_shape st σ rawEmail rawCode now rr hf hlk' hv]
          intro c hc
          exact ⟨c, hc, recordMonotone_refl c⟩
        | true =>
          obtain ⟨user, rF, h1, h2, h3, h4⟩ :=
            post_accept_shape st σ rawEmail rawCode now rr hf hlk' hv
          rw [h2]
          have hmem : rr ∈ σ.codes := (newestWhere_mem hf).1
          refine updateCode_mono_forward σ.codes hids rr rF hmem (by rw [h3]) ?_
          unfold recordMonotone
          refine ⟨by rw [h3], fun _ => by rw [h3], by rw [h3], fun h => by rw [h3]; exact h⟩
  · intro c hc
    simp only [RequestLoginCodeView.post, send_login_code_email]
    exact List.mem_append_left _ hc

/-- Fixture for the C7 witness: a locked, used record. -/
def wC7rec : LoginCode :=
  { id := 8, email := "a@b.com", userId := some 1, code := "333333", createdAt := 0,
    expiresAt := 15, used := true, attempts := 6, maxAttempts := 5,
    lockedUntil := some 30 }

def wC7st : St := { codes := [wC7rec], users := [], nextUserId := 0 }

theorem C7_witness :
    recordMonotone wC7rec (wC7rec.register_attempt defaultSettings 40) :=
  (C7_monotone_transitions defaultSettings wC7st "a@b.com" "111111" "b@c.com" "999999"
    1 40 2 9 false wC7rec (by unfold idsUnique; decide)).2.2

/-- Claim C8 (code-level behaviour at the failing input): the record *is*
persisted before delivery is attempted, but `send_login_code_email` never
raises — it swallows every exception and returns a Bool that
`RequestLoginCodeView.post` ignores — so when delivery fails
(`deliveryOk = false`) the view still answers success and the freshly
created record stays in the store instead of being rolled back. -/
theorem C8_failed_delivery_leaves_record :
    send_login_code_email false = .ok false ∧
    (RequestLoginCodeView.post defaultSettings ⟨[], [], 0⟩ "a@b.com" 9 "123456" false 0).1
      = .sent ∧
    (RequestLoginCodeView.post defaultSettings ⟨[], [], 0⟩ "a@b.com" 9 "123456" false 0).2.codes
      = [LoginCode.create_code defaultSettings 9 "a@b.com" none 15 "123456" none 0] := by
  refine ⟨rfl, rfl, ?_⟩
  rfl

theorem register_attempt_fields (c : LoginCode) (st : Settings) (t : Int) :
    (c.register_attempt st t).id = c.id ∧ (c.register_attempt st t).email = c.email ∧
    (c.register_attempt st t).code = c.code ∧
    (c.register_attempt st t).createdAt = c.createdAt ∧
    (c.register_attempt st t).maxAttempts = c.maxAttempts ∧
    (c.register_attempt st t).attempts = c.attempts + 1 := by
  rw [register_attempt_spec]
  exact ⟨rfl, rfl, rfl, rfl, rfl, rfl⟩

theorem register_attempt_locks (c : LoginCode) (st : Settings) (t : Int)
    (hmax : c.maxAttempts ≠ 0) (h : c.attempts + 1 ≥ c.maxAttempts) :
    (c.register_attempt st t).lockedUntil = some (t + st.LOGIN_CODE_LOCK_MINUTES) := by
  rw [register_attempt_spec, if_neg hmax, if_pos h]

theorem register_attempt_no_lock (c : LoginCode) (st : Settings) (t : Int)
    (hmax : c.maxAttempts ≠ 0) (h : ¬ c.attempts + 1 ≥ c.maxAttempts) :
    (c.register_attempt st t).lockedUntil = c.lockedUntil := by
  rw [register_attempt_spec, if_neg hmax, if_neg h]

/-- One wrong-code verify against a store that differs from `σ` only in
that the newest record for the email has been replaced by a same-id,
same-email, same-code, same-created-at version `l`: it rejects with
`noMatch` and replaces `l` by `l.register_attempt`. -/
theorem post_noMatch_step (st : Settings) (σ : St) (rawEmail rawCode : String) (t : Int)
    (latest l : LoginCode) (hids : idsUnique σ.codes)
    (hnone : exactMatchQ rawEmail rawCode σ.codes = none)
    (hlatest : latestForEmailQ rawEmail σ.codes = some latest)
    (hid : l.id = latest.id) (hemail : l.email = latest.email)
    (hcode : l.code = latest.code) (hcreated : l.createdAt = latest.createdAt) :
    VerifyLoginCodeView.post st { σ with codes := updateCode σ.codes l } rawEmail rawCode t
      = (.rejected .noMatch,
         { σ with codes := updateCode σ.codes (l.register_attempt st t) }) := by
  have hmem : latest ∈ σ.codes := (newestWhere_mem hlatest).1
  have hnone' : exactMatchQ rawEmail rawCode (updateCode σ.codes l) = none :=
    newestWhere_updateCode_none _ σ.codes hids latest l hmem hid
      (by simp only [hemail, hcode]) hcreated hnone
  have hlatest' : latestForEmailQ rawEmail (updateCode σ.codes l) = some l :=
    newestWhere_updateCode_some _ σ.codes hids latest l hlatest hid
      (by simp only [hemail]) hcreated
  have hshape := post_noMatch_shape st { σ with codes := updateCode σ.codes l }
    rawEmail rawCode t l hnone' hlatest'
  rw [hshape]
  show (VerifyResult.rejected RejectReason.noMatch,
        ({ σ with codes := updateCode (updateCode σ.codes l) (l.register_attempt st t) } : St))
      = _
  rw [updateCode_updateCode σ.codes l (l.register_attempt st t) (by rw [register_attempt_spec])]

/-- Claim C3: with the newest record for an email carrying
`max_attempts = 5` and a fresh `attempts = 0`, five consecutive
wrong-code verifies (codes matching no record) leave that record with
`attempts = 5` and `locked_until = t5 + lock duration`; a sixth verify
within the lockout window — submitting the record's own correct code —
returns `Rejected(locked)` and changes nothing. -/
theorem C3_five_wrong_then_locked (st : Settings) (σ : St)
    (rawEmail w1 w2 w3 w4 w5 rawCorrect : String)
    (t1 t2 t3 t4 t5 now : Int) (latest : LoginCode)
    (hids : idsUnique σ.codes)
    (hmax : latest.maxAttempts = 5) (h0 : latest.attempts = 0)
    (hlatest : latestForEmailQ rawEmail σ.codes = some latest)
    (hself : exactMatchQ rawEmail rawCorrect σ.codes = some latest)
    (hw1 : exactMatchQ rawEmail w1 σ.codes = none)
    (hw2 : exactMatchQ rawEmail w2 σ.codes = none)
    (hw3 : exactMatchQ rawEmail w3 σ.codes = none)
    (hw4 : exactMatchQ rawEmail w4 σ.codes = none)
    (hw5 : exactMatchQ rawEmail w5 σ.codes = none)
    (hwin : now < t5 + st.LOGIN_CODE_LOCK_MINUTES) :
    VerifyLoginCodeView.post st
        ((VerifyLoginCodeView.post st
          ((VerifyLoginCodeView.post st
            ((VerifyLoginCodeView.post st
              ((VerifyLoginCodeView.post st
                ((VerifyLoginCodeView.post st σ rawEmail w1 t1).2)
                rawEmail w2 t2).2)
              rawEmail w3 t3).2)
            rawEmail w4 t4).2)
          rawEmail w5 t5).2)
        rawEmail rawCorrect now
      = (.rejected .locked,
         (VerifyLoginCodeView.post st
           ((VerifyLoginCodeView.post st
             ((VerifyLoginCodeView.post st
               ((VerifyLoginCodeView.post st
                 ((VerifyLoginCodeView.post st σ rawEmail w1 t1).2)
                 rawEmail w2 t2).2)
               rawEmail w3 t3).2)
             rawEmail w4 t4).2)
           rawEmail w5 t5).2) := by
  obtain ⟨i1, e1, c1, r1, m1, a1⟩ := register_attempt_fields latest st t1
  obtain ⟨i2, e2, c2, r2, m2, a2⟩ :=
    register_attempt_fields (latest.register_attempt st t1) st t2
  obtain ⟨i3, e3, c3, r3, m3, a3⟩ :=
    register_attempt_fields ((latest.register_attempt st t1).register_attempt st t2) st t3
  obtain ⟨i4, e4, c4, r4, m4, a4⟩ :=
    register_attempt_fields
      (((latest.register_attempt st t1).register_attempt st t2).register_attempt st t3) st t4
  obtain ⟨i5, e5, c5, r5, m5, a5⟩ :=
    register_attempt_fields
      ((((latest.register_attempt st t1).register_attempt st t2).register_attempt
        st t3).register_attempt st t4) st t5
  have s1 := post_noMatch_shape st σ rawEmail w1 t1 latest hw1 hlatest
  have s2 := post_noMatch_step st σ rawEmail w2 t2 latest
    (latest.register_attempt st t1) hids hw2 hlatest i1 e1 c1 r1
  have s3 := post_noMatch_step st σ rawEmail w3 t3 latest
    ((latest.register_attempt st t1).register_attempt st t2) hids hw3 hlatest
    (i2.trans i1) (e2.trans e1) (c2.trans c1) (r2.trans r1)
  have s4 := post_noMatch_step st σ rawEmail w4 t4 latest
    (((latest.register_attempt st t1).register_attempt st t2).register_attempt st t3)
    hids hw4 hlatest
    (i3.trans (i2.trans i1)) (e3.trans (e2.trans e1)) (c3.trans (c2.trans c1))
    (r3.trans (r2.trans r1))
  have s5 := post_noMatch_step st σ rawEmail w5 t5 latest
    ((((latest.register_attempt st t1).register_attempt st t2).register_attempt
      st t3).register_attempt st t4)
    hids hw5 hlatest
    (i4.trans (i3.trans (i2.trans i1))) (e4.trans (e3.trans (e2.trans e1)))
    (c4.trans (c3.trans (c2.trans c1))) (r4.trans (r3.trans (r2.trans r1)))
  have hmem : latest ∈ σ.codes := (newestWhere_mem hlatest).1
  have hlock5 : (((((latest.register_attempt st t1).register_attempt st t2).register_attempt
        st t3).register_attempt st t4).register_attempt st t5).lockedUntil
      = some (t5 + st.LOGIN_CODE_LOCK_MINUTES) := by
    apply register_attempt_locks
    · rw [m4.trans (m3.trans (m2.trans (m1.trans hmax)))]
      decide
    · rw [a4, a3, a2, a1, h0, m4.trans (m3.trans (m2.trans (m1.trans hmax)))]
  have hfind6 : exactMatchQ rawEmail rawCorrect
      (updateCode σ.codes
        (((((latest.register_attempt st t1).register_attempt st t2).register_attempt
          st t3).register_attempt st t4).register_attempt st t5)) = some
        (((((latest.register_attempt st t1).register_attempt st t2).register_attempt
          st t3).register_attempt st t4).register_attempt st t5) :=
    newestWhere_updateCode_some _ σ.codes hids latest _ hself
      (i5.trans (i4.trans (i3.trans (i2.trans i1))))
      (by simp only [e5.trans (e4.trans (e3.trans (e2.trans e1))),
        c5.trans (c4.trans (c3.trans (c2.trans c1)))])
      (r5.trans (r4.trans (r3.trans (r2.trans r1))))
  have hlockB : lockActiveB
      (((((latest.register_attempt st t1).register_attempt st t2).register_attempt
        st t3).register_attempt st t4).register_attempt st t5) now = true := by
    unfold lockActiveB
    rw [hlock5]
    simpa using hwin
  have s6 := post_locked_shape st
    { σ with codes := updateCode σ.codes (((((latest.register_attempt st t1).register_attempt
        st t2).register_attempt st t3).register_attempt st t4).register_attempt st t5) }
    rawEmail rawCorrect now _ hfind6 hlockB
  simp only [s1, s2, s3, s4, s5, s6]

/-- Fixture for the C3 witness: one fresh record; wrong code "000000" is
submitted five times at times 1..5, then the correct code at time 6. -/
def wC3rec : LoginCode :=
  { id := 12, email := "a@b.com", userId := none, code := "111111", createdAt := 0,
    expiresAt := 120, used := false, attempts := 0, maxAttempts := 5,
    lockedUntil := none }

def wC3st : St := { codes := [wC3rec], users := [], nextUserId := 0 }

theorem C3_witness :
    VerifyLoginCodeView.post defaultSettings
        ((VerifyLoginCodeView.post defaultSettings
          ((VerifyLoginCodeView.post defaultSettings
            ((VerifyLoginCodeView.post defaultSettings
              ((VerifyLoginCodeView.post defaultSettings
                ((VerifyLoginCodeView.post defaultSettings wC3st "a@b.com" "000000" 1).2)
                "a@b.com" "000000" 2).2)
              "a@b.com" "000000" 3).2)
            "a@b.com" "000000" 4).2)
          "a@b.com" "000000" 5).2)
        "a@b.com" "111111" 6
      = (.rejected .locked,
         (VerifyLoginCodeView.post defaultSettings
           ((VerifyLoginCodeView.post defaultSettings
             ((VerifyLoginCodeView.post defaultSettings
               ((VerifyLoginCodeView.post defaultSettings
                 ((VerifyLoginCodeView.post defaultSettings wC3st "a@b.com" "000000" 1).2)
                 "a@b.com" "000000" 2).2)
               "a@b.com" "000000" 3).2)
             "a@b.com" "000000" 4).2)
           "a@b.com" "000000" 5).2) :=
  C3_five_wrong_then_locked defaultSettings wC3st "a@b.com" "000000" "000000" "000000"
    "000000" "000000" "111111" 1 2 3 4 5 6 wC3rec
    (by unfold idsUnique; decide) (by decide) (by decide) (by decide) (by decide)
    (by decide) (by decide) (by decide) (by decide) (by decide) (by decide)

end InventoryAI
